import Mathlib

/-!
Verification of the ParMmg library wrapper (libparmmg.c), its internal header
macros (parmmg.h) and the debug adjacency accessors (debug_pmmg.c).

The C sources are shallowly embedded:
* machine integers become Int (with explicit arithmetic; no overflow is
  relevant at the observed ranges),
* the results of external collaborators (MMG3D kernel calls, MPI transport,
  the remeshing loop PMMG_parmmglib1, system malloc) are oracle inputs,
* MPI_Allreduce over the fixed process set is modelled as a fold of min/max
  over the per-process local values,
* each C macro from parmmg.h becomes a function on an explicit
  memory-accounting state.
-/

namespace ParMmg

/-- Modelled from the spec: the process-level outcome code for full success.
The codes live in libparmmg.h which is not among the given sources; the spec
orders them SUCCESS < LOWFAILURE < STRONGFAILURE and reduces them with MPI
integer min/max. -/
def PMMG_SUCCESS : Int := 0

/-- Modelled from the spec: recoverable failure code (caller still receives a
usable mesh). -/
def PMMG_LOWFAILURE : Int := 1

/-- Modelled from the spec: unrecoverable failure code. -/
def PMMG_STRONGFAILURE : Int := 2

/-- Modelled from the spec: generic failure status used by the accounting
macros for their internal stat variable; only its being distinct from
PMMG_SUCCESS is ever used. -/
def PMMG_FAILURE : Int := 4

/-! ### Memory accounting (parmmg.h)

A mesh is seen through its two accounting fields, exactly the ones the
macros read and write. `memCur` and `memMax` are C long long / size-like
values, embedded as Int. -/

/-- Accounting view of an MMG5 mesh: the only fields the parmmg.h
allocation macros touch. -/
structure MMesh where
  memCur : Int
  memMax : Int
deriving DecidableEq, Repr

/-- MEM_CHK_AVAIL from parmmg.h: stat is PMMG_FAILURE when the request
overflows the ceiling; in both other branches (including the
"Tried to free more mem than allocated" branch, which only prints an
error) stat is PMMG_SUCCESS. -/
def MEM_CHK_AVAIL (mesh : MMesh) (bytes : Int) : Int :=
  if mesh.memCur + bytes > mesh.memMax then PMMG_FAILURE
  else PMMG_SUCCESS

/-- Observable outcome of one allocation macro: the accounting state
afterwards, whether the destination pointer was set to freshly allocated
storage, whether it ended up NULL, whether the macro's on_failure argument
was executed, and whether the out-of-memory branch of MEM_CHK_AVAIL
(message "Exceeded max memory allowed") was taken. -/
structure AllocOut where
  mesh : MMesh
  ptrFresh : Bool
  ptrNull : Bool
  onFailure : Bool
  oom : Bool
deriving DecidableEq, Repr

/-- PMMG_MALLOC from parmmg.h. `size` and `sizeofT` are the element count
and element size; `mallocOk` is the oracle for the system malloc call. For
size = 0 the macro only sets the pointer to NULL. -/
def PMMG_MALLOC (mesh : MMesh) (size sizeofT : Nat) (mallocOk : Bool) : AllocOut :=
  if size = 0 then ⟨mesh, false, true, false, false⟩
  else
    if MEM_CHK_AVAIL mesh ((size * sizeofT : Nat) : Int) = PMMG_SUCCESS then
      if mallocOk then
        ⟨{ mesh with memCur := mesh.memCur + ((size * sizeofT : Nat) : Int) },
          true, false, false, false⟩
      else ⟨mesh, false, true, true, false⟩
    else ⟨mesh, false, true, true, true⟩

/-- PMMG_CALLOC from parmmg.h: identical accounting to PMMG_MALLOC (the
zero-initialisation is invisible to the accounting state). -/
def PMMG_CALLOC (mesh : MMesh) (size sizeofT : Nat) (callocOk : Bool) : AllocOut :=
  if size = 0 then ⟨mesh, false, true, false, false⟩
  else
    if MEM_CHK_AVAIL mesh ((size * sizeofT : Nat) : Int) = PMMG_SUCCESS then
      if callocOk then
        ⟨{ mesh with memCur := mesh.memCur + ((size * sizeofT : Nat) : Int) },
          true, false, false, false⟩
      else ⟨mesh, false, true, true, false⟩
    else ⟨mesh, false, true, true, true⟩

/-- PMMG_DEL_MEM from parmmg.h: when size and the pointer are nonzero it
runs MEM_CHK_AVAIL on the negated byte count and, whenever stat is
PMMG_SUCCESS (which includes the over-free branch), adds the negative
size_to_free to memCur; the pointer is freed and NULLed regardless. -/
def PMMG_DEL_MEM (mesh : MMesh) (ptrNonNull : Bool) (size sizeofT : Nat) : MMesh :=
  if size ≠ 0 ∧ ptrNonNull then
    if MEM_CHK_AVAIL mesh (-((size * sizeofT : Nat) : Int)) = PMMG_SUCCESS then
      { mesh with memCur := mesh.memCur + -((size * sizeofT : Nat) : Int) }
    else mesh
  else mesh

/-- PMMG_REALLOC from parmmg.h. Branches exactly as the macro: NULL pointer
delegates to PMMG_MALLOC; newsize 0 delegates to PMMG_DEL_MEM; shrinking
reallocs without any ceiling check; growing checks only the delta against
the ceiling and, on an out-of-memory stat, leaves the pointer and memCur
untouched after the report — the growing branch has no else on its
stat test, so the caller's on_failure argument is not executed there;
newsize = oldsize (both nonzero with a live pointer) does nothing.
`reallocOk` is the oracle for the system realloc call. -/
def PMMG_REALLOC (mesh : MMesh) (ptrNonNull : Bool) (newsize oldsize sizeofT : Nat)
    (reallocOk : Bool) : AllocOut :=
  if ¬ptrNonNull then PMMG_MALLOC mesh newsize sizeofT reallocOk
  else if newsize = 0 then
    ⟨PMMG_DEL_MEM mesh true oldsize sizeofT, false, true, false, false⟩
  else if newsize < oldsize then
    if reallocOk then
      ⟨{ mesh with memCur :=
          mesh.memCur - (((oldsize * sizeofT : Nat) : Int) - ((newsize * sizeofT : Nat) : Int)) },
        true, false, false, false⟩
    else ⟨PMMG_DEL_MEM mesh true oldsize sizeofT, false, true, true, false⟩
  else if oldsize < newsize then
    if MEM_CHK_AVAIL mesh (((newsize - oldsize) * sizeofT : Nat) : Int) = PMMG_SUCCESS then
      if reallocOk then
        ⟨{ mesh with memCur := mesh.memCur + (((newsize - oldsize) * sizeofT : Nat) : Int) },
          true, false, false, false⟩
      else ⟨PMMG_DEL_MEM mesh true oldsize sizeofT, false, true, true, false⟩
    else ⟨mesh, false, false, false, true⟩
  else ⟨mesh, false, false, false, false⟩

/-- PMMG_RECALLOC from parmmg.h: PMMG_REALLOC followed, on success, by a
memset of the grown tail; the memset does not change the accounting state,
so the observable outcome coincides with PMMG_REALLOC. -/
def PMMG_RECALLOC (mesh : MMesh) (ptrNonNull : Bool) (newsize oldsize sizeofT : Nat)
    (reallocOk : Bool) : AllocOut :=
  PMMG_REALLOC mesh ptrNonNull newsize oldsize sizeofT reallocOk

/-- One invocation of an accounting macro, with its caller-supplied sizes
and the oracle results of the underlying system allocator. -/
inductive MemOp where
  | malloc (size sizeofT : Nat) (ok : Bool)
  | calloc (size sizeofT : Nat) (ok : Bool)
  | realloc (ptrNonNull : Bool) (newsize oldsize sizeofT : Nat) (ok : Bool)
  | recalloc (ptrNonNull : Bool) (newsize oldsize sizeofT : Nat) (ok : Bool)
  | delmem (ptrNonNull : Bool) (size sizeofT : Nat)
deriving DecidableEq, Repr

/-- Effect of one accounting macro on the accounting state. -/
def applyOp (mesh : MMesh) : MemOp → MMesh
  | .malloc s t ok => (PMMG_MALLOC mesh s t ok).mesh
  | .calloc s t ok => (PMMG_CALLOC mesh s t ok).mesh
  | .realloc p n o t ok => (PMMG_REALLOC mesh p n o t ok).mesh
  | .recalloc p n o t ok => (PMMG_RECALLOC mesh p n o t ok).mesh
  | .delmem p s t => PMMG_DEL_MEM mesh p s t

/-- Effect of a sequence of accounting macros. -/
def runOps (mesh : MMesh) (ops : List MemOp) : MMesh :=
  ops.foldl applyOp mesh

/-! ### Adjacency accessors (debug_pmmg.c)

The adja array of an MMG5 mesh packs, for each tetra/face, the adjacent
tetra and its facing face as 4*tetra + face. Entries are nonnegative C
ints, embedded as Nat so that / and % coincide with the C integer division
and remainder on the stored values. -/

/-- Adjacency view of an MMG5 mesh: the tetra count and the adja array,
read as a total function on indices as a C array lookup is. -/
structure AdjMesh where
  ne : Nat
  adja : Nat → Nat

/-- PMMG_adja_idx_of_face from debug_pmmg.c: the packed adjacency entry of
the given tetra/face, read at 4*(element-1)+1+face. -/
def PMMG_adja_idx_of_face (mesh : AdjMesh) (element face : Nat) : Nat :=
  mesh.adja (4 * (element - 1) + 1 + face)

/-- PMMG_adja_tetra_to_face from debug_pmmg.c: the adjacent tetra, the
packed entry divided by 4. -/
def PMMG_adja_tetra_to_face (mesh : AdjMesh) (element face : Nat) : Nat :=
  PMMG_adja_idx_of_face mesh element face / 4

/-- PMMG_adja_face_to_face from debug_pmmg.c: the facing face of the
adjacent tetra, the packed entry modulo 4. -/
def PMMG_adja_face_to_face (mesh : AdjMesh) (element face : Nat) : Nat :=
  PMMG_adja_idx_of_face mesh element face % 4

/-! ### Input data check (PMMG_check_inputData, libparmmg.c)

Only the fields the function reads are embedded. hsiz is a C double whose
only use here is the comparison with 0, embedded as a rational. -/

/-- Option fields of MMG5_Info read by PMMG_check_inputData. -/
structure MMGInfo where
  lag : Int
  iso : Bool
  optimLES : Bool
  optim : Bool
  hsiz : Rat
deriving DecidableEq, Repr

/-- View of an input MMG5 mesh for the input-data check. -/
structure MeshIn where
  info : MMGInfo
  np : Nat
deriving DecidableEq, Repr

/-- View of an input metric for the input-data check; `m` records whether
the metric value array is allocated. -/
structure MetIn where
  np : Nat
  size : Nat
  m : Bool
deriving DecidableEq, Repr

/-- One group of the input parmesh, as read by PMMG_check_inputData. -/
structure GrpIn where
  mesh : MeshIn
  met : MetIn
deriving DecidableEq, Repr

/-- Body of the PMMG_check_inputData loop for one group; returns the
0/1 outcome together with the possibly mutated group (a metric whose point
count mismatches the mesh is discarded with a warning: met.m is freed and
met.np zeroed, and the check continues). -/
def checkGrp (g : GrpIn) : Bool × GrpIn :=
  if g.mesh.info.lag > -1 then (false, g)
  else if g.mesh.info.iso then (false, g)
  else if g.mesh.info.optimLES ∧ g.met.size = 6 then (false, g)
  else if g.met.np ≠ 0 ∧ g.mesh.info.optim then (false, g)
  else if g.met.np ≠ 0 ∧ g.mesh.info.hsiz > 0 then (false, g)
  else if g.mesh.info.optim ∧ g.mesh.info.hsiz > 0 then (false, g)
  else if g.met.np ≠ 0 ∧ g.met.np ≠ g.mesh.np then
    (true, { g with met := { g.met with np := 0, m := false } })
  else if g.met.size ≠ 1 ∧ g.met.size ≠ 6 then (false, g)
  else (true, g)

/-- PMMG_check_inputData from libparmmg.c: checks every group in order,
returning 0 at the first failing group (later groups untouched) and 1 when
all pass, together with the groups after the metric-discard mutations. -/
def PMMG_check_inputData : List GrpIn → Bool × List GrpIn
  | [] => (true, [])
  | g :: rest =>
    let res := checkGrp g
    if res.1 then
      let rec2 := PMMG_check_inputData rest
      (rec2.1, res.2 :: rec2.2)
    else (false, res.2 :: rest)

/-- Option-combination errors rejected by PMMG_check_inputData: lagrangian
mode, level-set discretisation, optimLES with an anisotropic metric, optim
or hsiz with an input metric, optim together with hsiz. -/
def optionError (g : GrpIn) : Prop :=
  g.mesh.info.lag > -1 ∨ g.mesh.info.iso = true ∨
  (g.mesh.info.optimLES = true ∧ g.met.size = 6) ∨
  (g.met.np ≠ 0 ∧ g.mesh.info.optim = true) ∨
  (g.met.np ≠ 0 ∧ g.mesh.info.hsiz > 0) ∨
  (g.mesh.info.optim = true ∧ g.mesh.info.hsiz > 0)

/-- Metric-size error rejected by PMMG_check_inputData: a metric size other
than 1 or 6, reached only when the metric point count is zero or matches
the mesh (otherwise the mismatch-warning branch shadows it). -/
def sizeError (g : GrpIn) : Prop :=
  (g.met.np = 0 ∨ g.met.np = g.mesh.np) ∧ g.met.size ≠ 1 ∧ g.met.size ≠ 6

/-! ### Group cleanup (PMMG_CLEAN_AND_RETURN, parmmg.h)

The MMG5 mesh / solution structures are external; they are embedded with
the fields the cleanup touches or reads, plus a `rest` field standing for
all remaining fields, so that frame properties are expressible. -/

/-- Counter view of an MMG5 mesh for the cleanup: current and initial
entity counters, the number of solution fields, and the untouched
remainder of the structure. -/
structure MeshC where
  np : Int
  nt : Int
  na : Int
  ne : Int
  npi : Int
  nti : Int
  nai : Int
  nei : Int
  nsols : Nat
  rest : Nat
deriving DecidableEq, Repr

/-- Counter view of an MMG5 solution (metric or solution field). -/
structure SolC where
  np : Int
  npi : Int
  size : Nat
  rest : Nat
deriving DecidableEq, Repr

/-- One group as seen by PMMG_CLEAN_AND_RETURN: optional mesh and metric
handles plus the array of solution fields. -/
structure GrpC where
  mesh : Option MeshC
  met : Option SolC
  sol : List SolC
deriving DecidableEq, Repr

/-- Mesh counter resynchronisation: npi,nti,nai,nei receive np,nt,na,ne. -/
def cleanMesh (m : MeshC) : MeshC :=
  { m with npi := m.np, nti := m.nt, nai := m.na, nei := m.ne }

/-- Solution counter resynchronisation: npi receives np. -/
def cleanSol (s : SolC) : SolC :=
  { s with npi := s.np }

/-- The ksol loop of PMMG_CLEAN_AND_RETURN: resynchronise the first
`nsols` solution entries, leave the rest untouched. -/
def cleanSols : Nat → List SolC → List SolC
  | _, [] => []
  | 0, l => l
  | n + 1, s :: rest => cleanSol s :: cleanSols n rest

/-- Body of PMMG_CLEAN_AND_RETURN for one group: with a non-null mesh the
mesh counters are resynchronised; with a non-null metric its npi is
resynchronised; with a non-null mesh the first mesh.nsols solution entries
are resynchronised. -/
def cleanGrpC (g : GrpC) : GrpC :=
  let g1 :=
    match g.mesh with
    | none => g
    | some m => { g with mesh := some (cleanMesh m) }
  let g2 :=
    match g1.met with
    | none => g1
    | some s => { g1 with met := some (cleanSol s) }
  match g2.mesh with
  | none => g2
  | some m => { g2 with sol := cleanSols m.nsols g2.sol }

/-- PMMG_CLEAN_AND_RETURN from parmmg.h, restricted to its observable
effect on the group list (the macro then returns its val argument; the
drivers record that through the `cleaned` flag of RunOut). -/
def PMMG_clean_and_return (grps : List GrpC) : List GrpC :=
  grps.map cleanGrpC

/-- Fields of a mesh handle not written by the cleanup. -/
def meshCore (m : MeshC) : Int × Int × Int × Int × Nat × Nat :=
  (m.np, m.nt, m.na, m.ne, m.nsols, m.rest)

/-- Fields of a solution handle not written by the cleanup. -/
def solCore (s : SolC) : Int × Nat × Nat :=
  (s.np, s.size, s.rest)

/-! ### The library entry points (libparmmg.c)

PMMG_parmmglib_centralized and PMMG_parmmglib_distributed are embedded as
functions from the per-process oracle environments (the local results of
the external collaborators on every rank) and the rank to the observable
run outcome. MPI_Allreduce over the communicator is a fold of min/max of
the local values of all ranks; every other step is the local control flow
of the C function. -/

/-- Local oracle results of the external collaborators for one process:
the 0/1 result of PMMG_check_inputData, the 0/1 result of PMMG_bcast_mesh,
the code of PMMG_preprocessMesh, the success of the recovery unscaling,
the 0/1 result of PMMG_distribute_mesh, the code of PMMG_parmmglib1, the
0/1 result of PMMG_merge_parmesh, and the results of MMG3D_hashTetra and
MMG3D_bdryBuild. -/
structure ProcEnv where
  checkOk : Bool
  bcastOk : Bool
  preprocess : Int
  unscaleOk : Bool
  distributeOk : Bool
  remesh : Int
  mergeOk : Bool
  hashOk : Bool
  bdryOk : Bool
deriving DecidableEq, Repr, Inhabited

/-- The driver phases of the entry points, in source order: the pre-loop
input check, phase 1 of the centralized driver (broadcast, preprocessing,
distribution), phase 1 of the distributed driver (analysis), phase 2
(remeshing through PMMG_parmmglib1), phase 3 of the centralized driver
(merge over processors), and the mesh pack-up (boundary reconstruction). -/
inductive Phase where
  | checkInput
  | distribute
  | analysis
  | remesh
  | mergeToRoot
  | bdryReconstruction
deriving DecidableEq, Repr

/-- Observable outcome of one entry-point run on one rank: the phases it
entered in order, its return code, whether PMMG_parmesh_Free_Comm ran,
whether any group-list deallocation ran (the entry points contain no such
call), and whether the return went through PMMG_CLEAN_AND_RETURN. -/
structure RunOut where
  trace : List Phase
  ret : Int
  freedComm : Bool
  freedGrps : Bool
  cleaned : Bool
deriving DecidableEq, Repr

/-- MPI_Allreduce with MPI_MIN over one int per process (identity 1, the
passing value of the 0/1 checks). -/
def outMin (l : List Int) : Int :=
  l.foldr min 1

/-- MPI_Allreduce with MPI_MAX over one int per process (identity
PMMG_SUCCESS). -/
def outMax (l : List Int) : Int :=
  l.foldr max 0

/-- Reduced input-check outcome: MIN over the local 0/1 results. -/
def checkMin (envs : List ProcEnv) : Int :=
  outMin (envs.map fun e => if e.checkOk then 1 else 0)

/-- Local preprocessing outcome after the recovery step: a strong failure
whose unscaling succeeds is downgraded to a low failure before the
reduction. -/
def preprocAdj (e : ProcEnv) : Int :=
  if e.preprocess = PMMG_STRONGFAILURE ∧ e.unscaleOk then PMMG_LOWFAILURE
  else e.preprocess

/-- Reduced preprocessing outcome: MAX over the adjusted local codes. -/
def preprocMax (envs : List ProcEnv) : Int :=
  outMax (envs.map preprocAdj)

/-- Reduced remeshing outcome: MAX over the local PMMG_parmmglib1 codes. -/
def remeshMax (envs : List ProcEnv) : Int :=
  outMax (envs.map fun e => e.remesh)

/-- PMMG_parmmglib_centralized from libparmmg.c, for the process of rank
`r` among the processes described by `envs`. The input check and the
preprocessing and remeshing outcomes are reduced collectively; the
broadcast, distribution and merge results and (on rank 0 only) the
boundary reconstruction are checked locally, exactly as in the source. -/
def PMMG_parmmglib_centralized (envs : List ProcEnv) (r : Nat) : RunOut :=
  if checkMin envs = 0 then
    ⟨[Phase.checkInput], PMMG_LOWFAILURE, false, false, false⟩
  else if ((envs.get? r).getD default).bcastOk = false then
    ⟨[Phase.checkInput, Phase.distribute], PMMG_LOWFAILURE, false, false, false⟩
  else if preprocMax envs ≠ PMMG_SUCCESS then
    ⟨[Phase.checkInput, Phase.distribute], preprocMax envs, false, false, false⟩
  else if ((envs.get? r).getD default).distributeOk = false then
    ⟨[Phase.checkInput, Phase.distribute], PMMG_LOWFAILURE, false, false, true⟩
  else if remeshMax envs = PMMG_STRONGFAILURE then
    ⟨[Phase.checkInput, Phase.distribute, Phase.remesh], PMMG_STRONGFAILURE,
      false, false, false⟩
  else if ((envs.get? r).getD default).mergeOk = false then
    ⟨[Phase.checkInput, Phase.distribute, Phase.remesh, Phase.mergeToRoot],
      PMMG_STRONGFAILURE, false, false, true⟩
  else if r = 0 then
    if ((envs.get? r).getD default).hashOk = false ∨ ((envs.get? r).getD default).bdryOk = false then
      ⟨[Phase.checkInput, Phase.distribute, Phase.remesh, Phase.mergeToRoot,
          Phase.bdryReconstruction], PMMG_LOWFAILURE, true, false, true⟩
    else
      ⟨[Phase.checkInput, Phase.distribute, Phase.remesh, Phase.mergeToRoot,
          Phase.bdryReconstruction], remeshMax envs, true, false, true⟩
  else
    ⟨[Phase.checkInput, Phase.distribute, Phase.remesh, Phase.mergeToRoot],
      remeshMax envs, false, false, true⟩

/-- PMMG_parmmglib_distributed from libparmmg.c, for the process of rank
`r`: input check (reduced), analysis (reduced), remeshing (reduced), then
the pack-up phase on every rank, whose failure is a plain local return of
PMMG_LOWFAILURE after the communicators were freed. -/
def PMMG_parmmglib_distributed (envs : List ProcEnv) (r : Nat) : RunOut :=
  if checkMin envs = 0 then
    ⟨[Phase.checkInput], PMMG_LOWFAILURE, false, false, false⟩
  else if preprocMax envs ≠ PMMG_SUCCESS then
    ⟨[Phase.checkInput, Phase.analysis], preprocMax envs, false, false, false⟩
  else if remeshMax envs = PMMG_STRONGFAILURE then
    ⟨[Phase.checkInput, Phase.analysis, Phase.remesh], PMMG_STRONGFAILURE,
      false, false, false⟩
  else if ((envs.get? r).getD default).hashOk = false ∨ ((envs.get? r).getD default).bdryOk = false then
    ⟨[Phase.checkInput, Phase.analysis, Phase.remesh, Phase.bdryReconstruction],
      PMMG_LOWFAILURE, true, false, false⟩
  else
    ⟨[Phase.checkInput, Phase.analysis, Phase.remesh, Phase.bdryReconstruction],
      remeshMax envs, true, false, false⟩

/-- The centralized driver phases in their source order. -/
def canonicalPhases : List Phase :=
  [Phase.checkInput, Phase.distribute, Phase.remesh, Phase.mergeToRoot,
    Phase.bdryReconstruction]

/-- Environment of a process on which every collaborator succeeds. -/
def eAllOk : ProcEnv :=
  ⟨true, true, PMMG_SUCCESS, true, true, PMMG_SUCCESS, true, true, true⟩

/-- Environment succeeding everywhere except PMMG_merge_parmesh. -/
def eMergeFail : ProcEnv :=
  { eAllOk with mergeOk := false }

/-- Environment succeeding everywhere except PMMG_distribute_mesh. -/
def eDistFail : ProcEnv :=
  { eAllOk with distributeOk := false }

/-- Environment succeeding everywhere except PMMG_check_inputData. -/
def eCheckFail : ProcEnv :=
  { eAllOk with checkOk := false }

/-- Environment succeeding everywhere except the boundary build. -/
def eBdryFail : ProcEnv :=
  { eAllOk with bdryOk := false }

/-- Input group whose metric point count (5) differs from the mesh point
count (7) while every option and the metric size are admissible. -/
def gMismatch : GrpIn :=
  { mesh := { info := { lag := -1, iso := false, optimLES := false,
                        optim := false, hsiz := 0 }, np := 7 },
    met := { np := 5, size := 1, m := true } }

/-- Input group requesting the unavailable level-set discretisation. -/
def gIso : GrpIn :=
  { mesh := { info := { lag := -1, iso := true, optimLES := false,
                        optim := false, hsiz := 0 }, np := 4 },
    met := { np := 4, size := 1, m := true } }

/-- The over-free scenario: allocate one byte, then free five bytes
through the accounting macros. -/
def overFreeOps : List MemOp :=
  [MemOp.malloc 1 1 true, MemOp.delmem true 5 1]

/-- Environment whose local PMMG_parmmglib1 result is a strong failure. -/
def eRemeshStrong : ProcEnv :=
  { eAllOk with remesh := PMMG_STRONGFAILURE }

/-- Environment whose local PMMG_parmmglib1 result is a low failure. -/
def eRemeshLow : ProcEnv :=
  { eAllOk with remesh := PMMG_LOWFAILURE }

/-- Concrete mesh handle for the cleanup witnesses. -/
def mEx : MeshC :=
  ⟨3, 4, 5, 6, 0, 0, 0, 0, 2, 9⟩

/-- Concrete metric handle for the cleanup witnesses. -/
def sEx : SolC :=
  ⟨3, 0, 1, 7⟩

/-- Concrete group for the cleanup witnesses: a live mesh with two
solution fields plus one extra array slot beyond nsols. -/
def gCleanEx : GrpC :=
  { mesh := some mEx, met := some sEx,
    sol := [⟨3, 0, 1, 1⟩, ⟨3, 1, 3, 2⟩, ⟨3, 9, 3, 3⟩] }

/-- Concrete adjacency mesh for the accessor witness. -/
def mAdj : AdjMesh :=
  ⟨2, fun i => i + 3⟩

/-! ### Helper lemmas -/

theorem outMin_le_of_mem {l : List Int} {a : Int} (h : a ∈ l) : outMin l ≤ a := by
  induction l with
  | nil => cases h
  | cons b t ih =>
    rcases List.mem_cons.1 h with rfl | hm
    · exact min_le_left _ _
    · exact le_trans (min_le_right _ _) (ih hm)

theorem le_outMin {l : List Int} {c : Int} (h1 : c ≤ 1) (h : ∀ x ∈ l, c ≤ x) :
    c ≤ outMin l := by
  induction l with
  | nil => exact h1
  | cons b t ih =>
    exact le_min (h b (List.mem_cons_self _ _)) (ih fun x hx => h x (List.mem_cons_of_mem _ hx))

theorem outMin_le_one (l : List Int) : outMin l ≤ 1 := by
  induction l with
  | nil => exact le_refl _
  | cons b t ih => exact le_trans (min_le_right _ _) ih

theorem le_outMax_of_mem {l : List Int} {a : Int} (h : a ∈ l) : a ≤ outMax l := by
  induction l with
  | nil => cases h
  | cons b t ih =>
    rcases List.mem_cons.1 h with rfl | hm
    · exact le_max_left _ _
    · exact le_trans (ih hm) (le_max_right _ _)

theorem outMax_le {l : List Int} {c : Int} (h0 : 0 ≤ c) (h : ∀ x ∈ l, x ≤ c) :
    outMax l ≤ c := by
  induction l with
  | nil => exact h0
  | cons b t ih =>
    exact max_le (h b (List.mem_cons_self _ _)) (ih fun x hx => h x (List.mem_cons_of_mem _ hx))

theorem outMax_nonneg (l : List Int) : 0 ≤ outMax l := by
  induction l with
  | nil => exact le_refl _
  | cons b t ih => exact le_trans ih (le_max_right _ _)

theorem getD_mem {envs : List ProcEnv} {r : Nat} (h : r < envs.length) :
    (envs.get? r).getD default ∈ envs := by
  rw [List.get?_eq_get h]
  exact List.get_mem _ _ _

theorem checkMin_eq_zero {envs : List ProcEnv} {e : ProcEnv} (he : e ∈ envs)
    (hc : e.checkOk = false) : checkMin envs = 0 := by
  have h0 : (0 : Int) ∈ envs.map fun e => if e.checkOk then (1 : Int) else 0 :=
    List.mem_map.2 ⟨e, he, by simp [hc]⟩
  refine le_antisymm (outMin_le_of_mem h0) (le_outMin (by norm_num) ?_)
  intro x hx
  rcases List.mem_map.1 hx with ⟨e2, _, rfl⟩
  by_cases h : e2.checkOk <;> simp [h]

theorem checkMin_eq_one {envs : List ProcEnv} (h : ∀ e ∈ envs, e.checkOk = true) :
    checkMin envs = 1 := by
  refine le_antisymm (outMin_le_one _) (le_outMin (le_refl _) ?_)
  intro x hx
  rcases List.mem_map.1 hx with ⟨e2, he2, rfl⟩
  simp [h e2 he2]

theorem preprocMax_eq_zero {envs : List ProcEnv}
    (h : ∀ e ∈ envs, preprocAdj e = PMMG_SUCCESS) : preprocMax envs = 0 := by
  refine le_antisymm (outMax_le (le_refl _) ?_) (outMax_nonneg _)
  intro x hx
  rcases List.mem_map.1 hx with ⟨e2, he2, rfl⟩
  simp [h e2 he2, PMMG_SUCCESS]

theorem remeshMax_of_single {envs : List ProcEnv} {i : Nat} {v : Int}
    (hi : i < envs.length) (hv : 0 ≤ v)
    (hone : ((envs.get? i).getD default).remesh = v)
    (hrest : ∀ j, j < envs.length → j ≠ i →
      ((envs.get? j).getD default).remesh = PMMG_SUCCESS) :
    remeshMax envs = v := by
  refine le_antisymm (outMax_le hv ?_) ?_
  · intro x hx
    rcases List.mem_map.1 hx with ⟨e2, he2, rfl⟩
    rcases List.mem_iff_get.1 he2 with ⟨n, rfl⟩
    have hget : (envs.get? n.1).getD default = envs.get n := by
      rw [List.get?_eq_get n.2]
      rfl
    by_cases hn : n.1 = i
    · have : envs.get n = (envs.get? i).getD default := by rw [← hn, hget]
      rw [this, hone]
    · have := hrest n.1 n.2 hn
      rw [hget] at this
      rw [this]
      simpa [PMMG_SUCCESS] using hv
  · have hmem : ((envs.get? i).getD default).remesh ∈ envs.map fun e => e.remesh :=
      List.mem_map.2 ⟨_, getD_mem hi, rfl⟩
    rw [hone] at hmem
    exact le_outMax_of_mem hmem

theorem checkGrp_false_of {g : GrpIn} (h : optionError g ∨ sizeError g) :
    (checkGrp g).1 = false := by
  unfold checkGrp
  unfold optionError sizeError at h
  split_ifs with h1 h2 h3 h4 h5 h6 h7 h8 <;> first | rfl | (exfalso; tauto)

theorem check_inputData_false {grps : List GrpIn}
    (h : ∃ g ∈ grps, (checkGrp g).1 = false) :
    (PMMG_check_inputData grps).1 = false := by
  induction grps with
  | nil => rcases h with ⟨g, hg, _⟩; cases hg
  | cons g rest ih =>
    rcases h with ⟨g0, hg0, hf⟩
    unfold PMMG_check_inputData
    rcases List.mem_cons.1 hg0 with rfl | hmem
    · simp [hf]
    · by_cases hc : (checkGrp g).1
      · simpa [hc] using ih ⟨g0, hmem, hf⟩
      · simp [hc]

theorem cleanSols_map_core (n : Nat) (l : List SolC) :
    (cleanSols n l).map solCore = l.map solCore := by
  induction l generalizing n with
  | nil => cases n <;> rfl
  | cons s rest ih =>
    cases n with
    | zero => rfl
    | succ n => simp [cleanSols, cleanSol, solCore, ih n]

theorem cleanSols_drop (n : Nat) (l : List SolC) :
    (cleanSols n l).drop n = l.drop n := by
  induction l generalizing n with
  | nil => cases n <;> rfl
  | cons s rest ih =>
    cases n with
    | zero => rfl
    | succ n => simpa [cleanSols] using ih n

theorem cleanSols_take_sync (n : Nat) (l : List SolC) :
    ∀ s ∈ (cleanSols n l).take n, s.npi = s.np := by
  induction l generalizing n with
  | nil => cases n <;> simp [cleanSols]
  | cons s rest ih =>
    cases n with
    | zero => simp
    | succ n =>
      intro x hx
      rcases List.mem_cons.1 (by simpa [cleanSols] using hx) with rfl | hm
      · rfl
      · exact ih n x hm

theorem cleanGrpC_mesh_core (g : GrpC) :
    (cleanGrpC g).mesh.map meshCore = g.mesh.map meshCore := by
  cases hm : g.mesh <;> cases hs : g.met <;>
    simp [cleanGrpC, hm, hs, cleanMesh, meshCore]

theorem PMMG_MALLOC_memMax (m : MMesh) (s t : Nat) (ok : Bool) :
    (PMMG_MALLOC m s t ok).mesh.memMax = m.memMax := by
  unfold PMMG_MALLOC MEM_CHK_AVAIL
  split_ifs <;> rfl

theorem PMMG_MALLOC_le (m : MMesh) (s t : Nat) (ok : Bool) (h : m.memCur ≤ m.memMax) :
    (PMMG_MALLOC m s t ok).mesh.memCur ≤ m.memMax := by
  unfold PMMG_MALLOC MEM_CHK_AVAIL
  split_ifs <;> simp_all [PMMG_FAILURE, PMMG_SUCCESS] <;> omega

theorem PMMG_CALLOC_memMax (m : MMesh) (s t : Nat) (ok : Bool) :
    (PMMG_CALLOC m s t ok).mesh.memMax = m.memMax := by
  unfold PMMG_CALLOC MEM_CHK_AVAIL
  split_ifs <;> rfl

theorem PMMG_CALLOC_le (m : MMesh) (s t : Nat) (ok : Bool) (h : m.memCur ≤ m.memMax) :
    (PMMG_CALLOC m s t ok).mesh.memCur ≤ m.memMax := by
  unfold PMMG_CALLOC MEM_CHK_AVAIL
  split_ifs <;> simp_all [PMMG_FAILURE, PMMG_SUCCESS] <;> omega

theorem PMMG_DEL_MEM_memMax (m : MMesh) (p : Bool) (s t : Nat) :
    (PMMG_DEL_MEM m p s t).memMax = m.memMax := by
  unfold PMMG_DEL_MEM MEM_CHK_AVAIL
  split_ifs <;> rfl

theorem PMMG_DEL_MEM_le (m : MMesh) (p : Bool) (s t : Nat) (h : m.memCur ≤ m.memMax) :
    (PMMG_DEL_MEM m p s t).memCur ≤ m.memMax := by
  unfold PMMG_DEL_MEM MEM_CHK_AVAIL
  split_ifs <;> simp_all [PMMG_FAILURE, PMMG_SUCCESS] <;> omega

theorem PMMG_REALLOC_memMax (m : MMesh) (p : Bool) (n o t : Nat) (ok : Bool) :
    (PMMG_REALLOC m p n o t ok).mesh.memMax = m.memMax := by
  unfold PMMG_REALLOC
  split_ifs <;>
    first
      | exact PMMG_MALLOC_memMax m n t ok
      | simp [PMMG_DEL_MEM_memMax]
      | (unfold MEM_CHK_AVAIL; split_ifs <;> rfl)
      | rfl

theorem PMMG_REALLOC_le (m : MMesh) (p : Bool) (n o t : Nat) (ok : Bool)
    (h : m.memCur ≤ m.memMax) :
    (PMMG_REALLOC m p n o t ok).mesh.memCur ≤ m.memMax := by
  unfold PMMG_REALLOC
  by_cases hp : ¬(p = true)
  · rw [if_pos hp]
    exact PMMG_MALLOC_le m n t ok h
  · rw [if_neg hp]
    by_cases hn0 : n = 0
    · rw [if_pos hn0]
      simpa using PMMG_DEL_MEM_le m true o t h
    · rw [if_neg hn0]
      by_cases hlt : n < o
      · rw [if_pos hlt]
        have hcast : ((n * t : Nat) : Int) ≤ ((o * t : Nat) : Int) :=
          Int.ofNat_le.2 (Nat.mul_le_mul_right t (le_of_lt hlt))
        split_ifs
        · dsimp only
          omega
        · simpa using PMMG_DEL_MEM_le m true o t h
      · rw [if_neg hlt]
        by_cases hgt : o < n
        · rw [if_pos hgt]
          split_ifs with hchk hok
          · simp only [MEM_CHK_AVAIL] at hchk
            split_ifs at hchk with hover
            · exact absurd hchk (by decide)
            · dsimp only
              omega
          · simpa using PMMG_DEL_MEM_le m true o t h
          · exact h
        · rw [if_neg hgt]
          exact h

theorem applyOp_memMax (m : MMesh) (op : MemOp) : (applyOp m op).memMax = m.memMax := by
  cases op with
  | malloc s t ok => exact PMMG_MALLOC_memMax m s t ok
  | calloc s t ok => exact PMMG_CALLOC_memMax m s t ok
  | realloc p n o t ok => exact PMMG_REALLOC_memMax m p n o t ok
  | recalloc p n o t ok => exact PMMG_REALLOC_memMax m p n o t ok
  | delmem p s t => exact PMMG_DEL_MEM_memMax m p s t

theorem applyOp_le (m : MMesh) (op : MemOp) (h : m.memCur ≤ m.memMax) :
    (applyOp m op).memCur ≤ m.memMax := by
  cases op with
  | malloc s t ok => exact PMMG_MALLOC_le m s t ok h
  | calloc s t ok => exact PMMG_CALLOC_le m s t ok h
  | realloc p n o t ok => exact PMMG_REALLOC_le m p n o t ok h
  | recalloc p n o t ok => exact PMMG_REALLOC_le m p n o t ok h
  | delmem p s t => exact PMMG_DEL_MEM_le m p s t h

theorem runOps_memMax (ops : List MemOp) : ∀ m : MMesh, (runOps m ops).memMax = m.memMax := by
  induction ops with
  | nil => intro m; rfl
  | cons op rest ih =>
    intro m
    have h1 : runOps m (op :: rest) = runOps (applyOp m op) rest := rfl
    rw [h1, ih (applyOp m op), applyOp_memMax]

theorem runOps_le (ops : List MemOp) :
    ∀ m : MMesh, m.memCur ≤ m.memMax → (runOps m ops).memCur ≤ m.memMax := by
  induction ops with
  | nil => intro m h; exact h
  | cons op rest ih =>
    intro m h
    have h1 : runOps m (op :: rest) = runOps (applyOp m op) rest := rfl
    rw [h1]
    have h2 := ih (applyOp m op) (by rw [applyOp_memMax]; exact applyOp_le m op h)
    rwa [applyOp_memMax] at h2

theorem cleanGrpC_met_core (g : GrpC) :
    (cleanGrpC g).met.map solCore = g.met.map solCore := by
  cases hm : g.mesh <;> cases hs : g.met <;>
    simp [cleanGrpC, hm, hs, cleanSol, solCore]

theorem cleanGrpC_sol_core (g : GrpC) :
    (cleanGrpC g).sol.map solCore = g.sol.map solCore := by
  cases hm : g.mesh <;> cases hs : g.met <;>
    simp [cleanGrpC, hm, hs, cleanSols_map_core]

theorem cleanGrpC_mesh_sync (g : GrpC) :
    ∀ m, (cleanGrpC g).mesh = some m →
      m.npi = m.np ∧ m.nti = m.nt ∧ m.nai = m.na ∧ m.nei = m.ne := by
  intro m hm2
  cases hm : g.mesh with
  | none =>
    cases hs : g.met <;> simp [cleanGrpC, hm, hs] at hm2
  | some m0 =>
    have : m = cleanMesh m0 := by
      cases hs : g.met <;> simp [cleanGrpC, hm, hs] at hm2 <;> exact hm2.symm
    subst this
    exact ⟨rfl, rfl, rfl, rfl⟩

theorem cleanGrpC_met_sync (g : GrpC) :
    ∀ s, (cleanGrpC g).met = some s → s.npi = s.np := by
  intro s hs2
  cases hm : g.mesh <;> cases hs : g.met <;> simp [cleanGrpC, hm, hs] at hs2 <;>
    first
      | (subst hs2; rfl)
      | (rw [← hs2])

theorem cleanGrpC_sol_sync (g : GrpC) :
    ∀ m, (cleanGrpC g).mesh = some m →
      ∀ s ∈ (cleanGrpC g).sol.take m.nsols, s.npi = s.np := by
  intro m hm2
  cases hm : g.mesh with
  | none =>
    cases hs : g.met <;> simp [cleanGrpC, hm, hs] at hm2
  | some m0 =>
    have hsol : (cleanGrpC g).sol = cleanSols m0.nsols g.sol := by
      cases hs : g.met <;> simp [cleanGrpC, hm, hs, cleanMesh]
    have hmm : m = cleanMesh m0 := by
      cases hs : g.met <;> simp [cleanGrpC, hm, hs] at hm2 <;> exact hm2.symm
    rw [hsol, hmm]
    exact cleanSols_take_sync m0.nsols g.sol

theorem cleanGrpC_sol_drop (g : GrpC) :
    ∀ m, g.mesh = some m → (cleanGrpC g).sol.drop m.nsols = g.sol.drop m.nsols := by
  intro m hm
  have hsol : (cleanGrpC g).sol = cleanSols m.nsols g.sol := by
    cases hs : g.met <;> simp [cleanGrpC, hm, hs, cleanMesh]
  rw [hsol]
  exact cleanSols_drop m.nsols g.sol

theorem cleanGrpC_mesh_none (g : GrpC) (hm : g.mesh = none) :
    (cleanGrpC g).sol = g.sol ∧ (cleanGrpC g).mesh = none := by
  cases hs : g.met <;> simp [cleanGrpC, hm, hs]

/-- C9: for every mesh, every tetrahedron index at least 1 and every face
index below 4, the tetra and face accessors are exactly the quotient and
the remainder by 4 of the packed adjacency entry:
4 * PMMG_adja_tetra_to_face + PMMG_adja_face_to_face = PMMG_adja_idx_of_face. -/
theorem claim_C9 (mesh : AdjMesh) (element face : Nat)
    (he : 1 ≤ element) (hf : face < 4) :
    4 * PMMG_adja_tetra_to_face mesh element face +
      PMMG_adja_face_to_face mesh element face =
      PMMG_adja_idx_of_face mesh element face := by
  unfold PMMG_adja_tetra_to_face PMMG_adja_face_to_face
  exact Nat.div_add_mod _ 4

/-- Witness for C9 at a concrete mesh, element 1 and face 2. -/
theorem claim_C9_witness :
    4 * PMMG_adja_tetra_to_face mAdj 1 2 + PMMG_adja_face_to_face mAdj 1 2 =
      PMMG_adja_idx_of_face mAdj 1 2 :=
  claim_C9 mAdj 1 2 (by decide) (by decide)

/-- C3 counterexample: on the growing branch of PMMG_REALLOC an
over-ceiling request (memCur 10, ceiling 12, delta 4 bytes) performs no
allocation and prints the out-of-memory report, but the macro's
on_failure path is not executed — the growing branch has no else on its
stat test — so the claim's failure-path clause fails for PMMG_REALLOC. -/
theorem claim_C3_cex :
    (PMMG_REALLOC ⟨10, 12⟩ true 2 1 4 true).onFailure = false ∧
    (PMMG_REALLOC ⟨10, 12⟩ true 2 1 4 true).oom = true ∧
    (PMMG_REALLOC ⟨10, 12⟩ true 2 1 4 true).mesh = ⟨10, 12⟩ ∧
    (PMMG_REALLOC ⟨10, 12⟩ true 2 1 4 true).ptrFresh = false ∧
    (10 : Int) + ((2 - 1) * 4 : Nat) > 12 := by
  decide

/-- C3 (amended): for PMMG_MALLOC and PMMG_CALLOC, a request whose byte
count would push memCur above memMax performs no allocation, leaves the
destination without fresh storage, leaves memCur unchanged, and executes
the failure path with the out-of-memory report; on the growing branch of
PMMG_REALLOC such a request likewise performs no allocation and leaves
the pointer and memCur unchanged after the out-of-memory report, but
silently skips the caller's on_failure handler; otherwise (with the
system allocator succeeding) the allocation proceeds and memCur grows by
exactly the allocated size. -/
theorem claim_C3 (m : MMesh) (size sizeofT newsize oldsize : Nat) (ok : Bool)
    (hsz : 0 < size) (hst : 0 < sizeofT) (hgrow : oldsize < newsize) :
    ((m.memCur + ((size * sizeofT : Nat) : Int) > m.memMax →
        PMMG_MALLOC m size sizeofT ok = ⟨m, false, true, true, true⟩) ∧
      (m.memCur + ((size * sizeofT : Nat) : Int) ≤ m.memMax → ok = true →
        PMMG_MALLOC m size sizeofT ok =
          ⟨{ m with memCur := m.memCur + ((size * sizeofT : Nat) : Int) },
            true, false, false, false⟩)) ∧
    ((m.memCur + ((size * sizeofT : Nat) : Int) > m.memMax →
        PMMG_CALLOC m size sizeofT ok = ⟨m, false, true, true, true⟩) ∧
      (m.memCur + ((size * sizeofT : Nat) : Int) ≤ m.memMax → ok = true →
        PMMG_CALLOC m size sizeofT ok =
          ⟨{ m with memCur := m.memCur + ((size * sizeofT : Nat) : Int) },
            true, false, false, false⟩)) ∧
    ((m.memCur + (((newsize - oldsize) * sizeofT : Nat) : Int) > m.memMax →
        PMMG_REALLOC m true newsize oldsize sizeofT ok =
          ⟨m, false, false, false, true⟩) ∧
      (m.memCur + (((newsize - oldsize) * sizeofT : Nat) : Int) ≤ m.memMax →
        ok = true →
        PMMG_REALLOC m true newsize oldsize sizeofT ok =
          ⟨{ m with memCur := m.memCur + (((newsize - oldsize) * sizeofT : Nat) : Int) },
            true, false, false, false⟩)) := by
  have hsne : ¬(size = 0) := Nat.pos_iff_ne_zero.1 hsz
  have hnne : ¬(newsize = 0) := by omega
  have hnlt : ¬(newsize < oldsize) := by omega
  refine ⟨⟨?_, ?_⟩, ⟨?_, ?_⟩, ⟨?_, ?_⟩⟩
  · intro hover
    unfold PMMG_MALLOC
    rw [if_neg hsne]
    have hchk : MEM_CHK_AVAIL m ((size * sizeofT : Nat) : Int) = PMMG_FAILURE := by
      unfold MEM_CHK_AVAIL
      rw [if_pos hover]
    rw [if_neg (by rw [hchk]; decide)]
  · intro hle hok
    unfold PMMG_MALLOC
    rw [if_neg hsne]
    have hchk : MEM_CHK_AVAIL m ((size * sizeofT : Nat) : Int) = PMMG_SUCCESS := by
      unfold MEM_CHK_AVAIL
      rw [if_neg (not_lt.2 hle)]
    rw [if_pos hchk, if_pos hok]
  · intro hover
    unfold PMMG_CALLOC
    rw [if_neg hsne]
    have hchk : MEM_CHK_AVAIL m ((size * sizeofT : Nat) : Int) = PMMG_FAILURE := by
      unfold MEM_CHK_AVAIL
      rw [if_pos hover]
    rw [if_neg (by rw [hchk]; decide)]
  · intro hle hok
    unfold PMMG_CALLOC
    rw [if_neg hsne]
    have hchk : MEM_CHK_AVAIL m ((size * sizeofT : Nat) : Int) = PMMG_SUCCESS := by
      unfold MEM_CHK_AVAIL
      rw [if_neg (not_lt.2 hle)]
    rw [if_pos hchk, if_pos hok]
  · intro hover
    unfold PMMG_REALLOC
    rw [if_neg (by simp), if_neg hnne, if_neg hnlt, if_pos hgrow]
    have hchk : MEM_CHK_AVAIL m (((newsize - oldsize) * sizeofT : Nat) : Int) =
        PMMG_FAILURE := by
      unfold MEM_CHK_AVAIL
      rw [if_pos hover]
    rw [if_neg (by rw [hchk]; decide)]
  · intro hle hok
    unfold PMMG_REALLOC
    rw [if_neg (by simp), if_neg hnne, if_neg hnlt, if_pos hgrow]
    have hchk : MEM_CHK_AVAIL m (((newsize - oldsize) * sizeofT : Nat) : Int) =
        PMMG_SUCCESS := by
      unfold MEM_CHK_AVAIL
      rw [if_neg (not_lt.2 hle)]
    rw [if_pos hchk, if_pos hok]

/-- Witness for C3 at a concrete accounting state: a 4-byte request over a
12-byte ceiling with 10 bytes in use fails with the out-of-memory path. -/
theorem claim_C3_witness :
    PMMG_MALLOC ⟨10, 12⟩ 1 4 true = ⟨⟨10, 12⟩, false, true, true, true⟩ :=
  (claim_C3 ⟨10, 12⟩ 1 4 2 1 true (by decide) (by decide) (by decide)).1.1 (by decide)

/-- C8 counterexample: starting from memCur = 0 with memMax = 100, a
malloc of 1 byte followed by a PMMG_DEL_MEM of 5 bytes drives memCur to
-4: the over-free branch of MEM_CHK_AVAIL reports an error but proceeds
with PMMG_SUCCESS, so the invariant 0 ≤ memCur is violated. -/
theorem claim_C8_cex :
    (runOps ⟨0, 100⟩ overFreeOps).memCur = -4 ∧
    ¬(0 ≤ (runOps ⟨0, 100⟩ overFreeOps).memCur) := by decide

/-- C8 (amended): for every sequence of accounting macro invocations on a
mesh starting at memCur = 0 with a nonnegative ceiling, memCur ≤ memMax
holds after every operation; the lower bound 0 ≤ memCur can be violated by
freeing more bytes than are accounted. -/
theorem claim_C8 (ops : List MemOp) (memMax : Int) (h : 0 ≤ memMax) :
    (runOps ⟨0, memMax⟩ ops).memCur ≤ memMax :=
  runOps_le ops ⟨0, memMax⟩ h

/-- Witness for C8 on the over-free sequence with ceiling 100. -/
theorem claim_C8_witness : (runOps ⟨0, 100⟩ overFreeOps).memCur ≤ 100 :=
  claim_C8 overFreeOps 100 (by decide)

/-- C10: every group produced by the cleanup macro has its initial
counters npi, nti, nai, nei equal to the current counters np, nt, na, ne
of its mesh, its metric's npi equal to the metric's np, and each of the
first nsols solutions' npi equal to its np, while it arises from an input
group whose every other field (mesh core fields, metric and solution core
fields, the solutions beyond nsols, and everything when the mesh handle is
null) is unmodified. -/
theorem claim_C10 (grps : List GrpC) (g2 : GrpC)
    (hg : g2 ∈ PMMG_clean_and_return grps) :
    (∀ m, g2.mesh = some m →
        m.npi = m.np ∧ m.nti = m.nt ∧ m.nai = m.na ∧ m.nei = m.ne) ∧
    (∀ s, g2.met = some s → s.npi = s.np) ∧
    (∀ m, g2.mesh = some m → ∀ s ∈ g2.sol.take m.nsols, s.npi = s.np) ∧
    (∃ g ∈ grps,
      g2.mesh.map meshCore = g.mesh.map meshCore ∧
      g2.met.map solCore = g.met.map solCore ∧
      g2.sol.map solCore = g.sol.map solCore ∧
      (∀ m, g.mesh = some m → g2.sol.drop m.nsols = g.sol.drop m.nsols) ∧
      (g.mesh = none → g2.sol = g.sol ∧ g2.mesh = none)) := by
  rcases List.mem_map.1 hg with ⟨g, hgmem, rfl⟩
  exact ⟨cleanGrpC_mesh_sync g, cleanGrpC_met_sync g, cleanGrpC_sol_sync g,
    g, hgmem, cleanGrpC_mesh_core g, cleanGrpC_met_core g, cleanGrpC_sol_core g,
    cleanGrpC_sol_drop g, cleanGrpC_mesh_none g⟩

/-- Witness for C10 at a concrete group with a live mesh, metric and
three solution fields. -/
theorem claim_C10_witness :
    (cleanMesh mEx).npi = (cleanMesh mEx).np ∧
    (cleanMesh mEx).nti = (cleanMesh mEx).nt ∧
    (cleanMesh mEx).nai = (cleanMesh mEx).na ∧
    (cleanMesh mEx).nei = (cleanMesh mEx).ne :=
  (claim_C10 [gCleanEx] (cleanGrpC gCleanEx) (by decide)).1 (cleanMesh mEx) (by decide)

theorem clean_preserves_meshCore (grps : List GrpC) :
    (PMMG_clean_and_return grps).map (fun g => g.mesh.map meshCore) =
      grps.map (fun g => g.mesh.map meshCore) := by
  induction grps with
  | nil => rfl
  | cons g rest ih =>
    simp only [PMMG_clean_and_return, List.map_cons] at *
    rw [cleanGrpC_mesh_core g, ih]

/-- C1 counterexample: with two processes all of whose collaborator steps
succeed except that the merge fails on rank 1, rank 1 returns
PMMG_STRONGFAILURE while rank 0 proceeds into the boundary phase and
returns PMMG_SUCCESS: the merge-to-root outcome is not aggregated by any
collective reduction, so a process continues on purely local success while
a peer failed. -/
theorem claim_C1_cex :
    (PMMG_parmmglib_centralized [eAllOk, eMergeFail] 1).ret = PMMG_STRONGFAILURE ∧
    (PMMG_parmmglib_centralized [eAllOk, eMergeFail] 0).ret = PMMG_SUCCESS ∧
    Phase.bdryReconstruction ∈
      (PMMG_parmmglib_centralized [eAllOk, eMergeFail] 0).trace := by
  decide

/-- C1 (amended): the input check, the preprocessing and the remeshing
outcomes are aggregated by worst-outcome collective reductions and acted on
identically by every process, so whenever the locally checked steps
(broadcast, distribution, merge, boundary build) succeed on every rank,
all ranks return the same code; the merge-to-root and
boundary-reconstruction outcomes themselves are checked only locally. -/
theorem claim_C1 (envs : List ProcEnv) (r r2 : Nat)
    (hall : ∀ e ∈ envs, e.bcastOk = true ∧ e.distributeOk = true ∧
      e.mergeOk = true ∧ e.hashOk = true ∧ e.bdryOk = true)
    (hr : r < envs.length) (hr2 : r2 < envs.length) :
    (PMMG_parmmglib_centralized envs r).ret =
      (PMMG_parmmglib_centralized envs r2).ret := by
  obtain ⟨hb, hd, hm, hh, hy⟩ := hall _ (getD_mem hr)
  obtain ⟨hb2, hd2, hm2, hh2, hy2⟩ := hall _ (getD_mem hr2)
  unfold PMMG_parmmglib_centralized
  simp only [hb, hd, hm, hh, hy, hb2, hd2, hm2, hh2, hy2]
  split_ifs <;> first | rfl | (exfalso; simp_all)

/-- Witness for C1 (amended) on two all-success processes. -/
theorem claim_C1_witness :
    (PMMG_parmmglib_centralized [eAllOk, eAllOk] 0).ret =
      (PMMG_parmmglib_centralized [eAllOk, eAllOk] 1).ret :=
  claim_C1 [eAllOk, eAllOk] 0 1 (by decide) (by decide) (by decide)

/-- C2: when every process passes the input check, broadcast,
preprocessing and distribution, then a single PMMG_STRONGFAILURE from the
remeshing phase with all peers reporting PMMG_SUCCESS makes every process
return PMMG_STRONGFAILURE after the maximum reduction without entering the
merge-to-root phase, and a single PMMG_LOWFAILURE makes every process's
final result at least PMMG_LOWFAILURE. -/
theorem claim_C2 (envs : List ProcEnv) (i : Nat) (hi : i < envs.length)
    (hrun : ∀ e ∈ envs, e.checkOk = true ∧ e.bcastOk = true ∧
      preprocAdj e = PMMG_SUCCESS ∧ e.distributeOk = true) :
    ((((envs.get? i).getD default).remesh = PMMG_STRONGFAILURE ∧
        (∀ j, j < envs.length → j ≠ i →
          ((envs.get? j).getD default).remesh = PMMG_SUCCESS)) →
      ∀ r, r < envs.length →
        (PMMG_parmmglib_centralized envs r).ret = PMMG_STRONGFAILURE ∧
        Phase.mergeToRoot ∉ (PMMG_parmmglib_centralized envs r).trace ∧
        (PMMG_parmmglib_distributed envs r).ret = PMMG_STRONGFAILURE) ∧
    ((((envs.get? i).getD default).remesh = PMMG_LOWFAILURE ∧
        (∀ j, j < envs.length → j ≠ i →
          ((envs.get? j).getD default).remesh = PMMG_SUCCESS)) →
      ∀ r, r < envs.length →
        PMMG_LOWFAILURE ≤ (PMMG_parmmglib_centralized envs r).ret ∧
        PMMG_LOWFAILURE ≤ (PMMG_parmmglib_distributed envs r).ret) := by
  have hcm : checkMin envs = 1 := checkMin_eq_one fun e he => (hrun e he).1
  have hpm : preprocMax envs = 0 := preprocMax_eq_zero fun e he => (hrun e he).2.2.1
  constructor
  · rintro ⟨h2, h0⟩ r hr
    have hmax : remeshMax envs = PMMG_STRONGFAILURE :=
      remeshMax_of_single hi (by decide) h2 h0
    obtain ⟨-, hb, -, hd⟩ := hrun _ (getD_mem hr)
    have hcc : PMMG_parmmglib_centralized envs r =
        ⟨[Phase.checkInput, Phase.distribute, Phase.remesh], PMMG_STRONGFAILURE,
          false, false, false⟩ := by
      unfold PMMG_parmmglib_centralized
      rw [if_neg (by rw [hcm]; decide), if_neg (by rw [hb]; decide),
        if_neg (by rw [hpm]; decide), if_neg (by rw [hd]; decide), if_pos hmax]
    have hdd : PMMG_parmmglib_distributed envs r =
        ⟨[Phase.checkInput, Phase.analysis, Phase.remesh], PMMG_STRONGFAILURE,
          false, false, false⟩ := by
      unfold PMMG_parmmglib_distributed
      rw [if_neg (by rw [hcm]; decide), if_neg (by rw [hpm]; decide), if_pos hmax]
    rw [hcc, hdd]
    exact ⟨rfl, by decide, rfl⟩
  · rintro ⟨h1, h0⟩ r hr
    have hmax : remeshMax envs = PMMG_LOWFAILURE :=
      remeshMax_of_single hi (by decide) h1 h0
    obtain ⟨-, hb, -, hd⟩ := hrun _ (getD_mem hr)
    constructor
    · unfold PMMG_parmmglib_centralized
      rw [if_neg (by rw [hcm]; decide), if_neg (by rw [hb]; decide),
        if_neg (by rw [hpm]; decide), if_neg (by rw [hd]; decide),
        if_neg (by rw [hmax]; decide)]
      split_ifs <;> (try rw [hmax]) <;> decide
    · unfold PMMG_parmmglib_distributed
      rw [if_neg (by rw [hcm]; decide), if_neg (by rw [hpm]; decide),
        if_neg (by rw [hmax]; decide)]
      split_ifs <;> (try rw [hmax]) <;> decide

/-- Witness for C2: two processes, a strong remeshing failure on rank 0
and success on rank 1. -/
theorem claim_C2_witness :
    (PMMG_parmmglib_centralized [eRemeshStrong, eAllOk] 0).ret = PMMG_STRONGFAILURE ∧
    Phase.mergeToRoot ∉ (PMMG_parmmglib_centralized [eRemeshStrong, eAllOk] 0).trace ∧
    (PMMG_parmmglib_distributed [eRemeshStrong, eAllOk] 0).ret = PMMG_STRONGFAILURE :=
  (claim_C2 [eRemeshStrong, eAllOk] 0 (by decide) (by decide)).1 (by decide) 0 (by decide)

/-- C4 counterexample: a group whose metric point count (5) differs from
its mesh point count (7) passes PMMG_check_inputData (the metric is merely
discarded with a warning), so the run does not return PMMG_LOWFAILURE and
the remeshing loop starts. -/
theorem claim_C4_cex :
    (PMMG_check_inputData [gMismatch]).1 = true ∧
    (PMMG_parmmglib_centralized
        [{ eAllOk with checkOk := (PMMG_check_inputData [gMismatch]).1 }] 0).ret =
      PMMG_SUCCESS ∧
    Phase.remesh ∈ (PMMG_parmmglib_centralized
        [{ eAllOk with checkOk := (PMMG_check_inputData [gMismatch]).1 }] 0).trace := by
  decide

/-- C4 (amended): every option-combination error and every metric-size
error that the check reaches (metric size outside 1 and 6 with a zero or
matching metric point count) makes PMMG_check_inputData fail, and any
process whose local check fails makes every process of both entry points
return PMMG_LOWFAILURE after the minimum reduction with the remeshing loop
never started; a metric point count differing from the mesh point count is
only a warning that discards the metric and lets the run continue. -/
theorem claim_C4 (grps : List GrpIn) (envs : List ProcEnv) (i : Nat)
    (hg : ∃ g ∈ grps, optionError g ∨ sizeError g)
    (hi : i < envs.length)
    (hlink : ((envs.get? i).getD default).checkOk = (PMMG_check_inputData grps).1) :
    (PMMG_check_inputData grps).1 = false ∧
    ∀ r, r < envs.length →
      (PMMG_parmmglib_centralized envs r).ret = PMMG_LOWFAILURE ∧
      (PMMG_parmmglib_centralized envs r).trace = [Phase.checkInput] ∧
      (PMMG_parmmglib_distributed envs r).ret = PMMG_LOWFAILURE ∧
      (PMMG_parmmglib_distributed envs r).trace = [Phase.checkInput] := by
  rcases hg with ⟨g, hgm, hbad⟩
  have hfalse : (PMMG_check_inputData grps).1 = false :=
    check_inputData_false ⟨g, hgm, checkGrp_false_of hbad⟩
  have hcm : checkMin envs = 0 :=
    checkMin_eq_zero (getD_mem hi) (by rw [hlink, hfalse])
  refine ⟨hfalse, fun r hr => ?_⟩
  have hc1 : PMMG_parmmglib_centralized envs r =
      ⟨[Phase.checkInput], PMMG_LOWFAILURE, false, false, false⟩ := by
    unfold PMMG_parmmglib_centralized
    rw [if_pos hcm]
  have hc2 : PMMG_parmmglib_distributed envs r =
      ⟨[Phase.checkInput], PMMG_LOWFAILURE, false, false, false⟩ := by
    unfold PMMG_parmmglib_distributed
    rw [if_pos hcm]
  rw [hc1, hc2]
  exact ⟨rfl, rfl, rfl, rfl⟩

/-- Witness for C4 (amended): a level-set group fails the check and the
run aborts before the loop. -/
theorem claim_C4_witness :
    (PMMG_parmmglib_centralized [{ eAllOk with checkOk := false }] 0).ret =
      PMMG_LOWFAILURE ∧
    (PMMG_parmmglib_centralized [{ eAllOk with checkOk := false }] 0).trace =
      [Phase.checkInput] ∧
    (PMMG_parmmglib_distributed [{ eAllOk with checkOk := false }] 0).ret =
      PMMG_LOWFAILURE ∧
    (PMMG_parmmglib_distributed [{ eAllOk with checkOk := false }] 0).trace =
      [Phase.checkInput] :=
  (claim_C4 [gIso] [{ eAllOk with checkOk := false }] 0
      ⟨gIso, List.mem_singleton.2 rfl, Or.inl (Or.inr (Or.inl rfl))⟩
      (by decide) (by decide)).2 0 (by decide)

/-- C5: when the run reaches the pack-up phase (reduced check,
preprocessing and remeshing outcomes passing, local broadcast,
distribution and merge succeeding) and the boundary reconstruction fails
on the root, the centralized entry point returns PMMG_LOWFAILURE and not
PMMG_STRONGFAILURE (and likewise the distributed entry point), while the
cleanup performed on return leaves every group's mesh handle present with
its core fields intact. -/
theorem claim_C5 (envs : List ProcEnv) (grps : List GrpC)
    (hc : checkMin envs ≠ 0)
    (hp : preprocMax envs = PMMG_SUCCESS)
    (hrm : remeshMax envs ≠ PMMG_STRONGFAILURE)
    (hb : ((envs.get? 0).getD default).bcastOk = true)
    (hd : ((envs.get? 0).getD default).distributeOk = true)
    (hm : ((envs.get? 0).getD default).mergeOk = true)
    (hfail : ((envs.get? 0).getD default).hashOk = false ∨
      ((envs.get? 0).getD default).bdryOk = false) :
    (PMMG_parmmglib_centralized envs 0).ret = PMMG_LOWFAILURE ∧
    (PMMG_parmmglib_centralized envs 0).ret ≠ PMMG_STRONGFAILURE ∧
    (PMMG_parmmglib_distributed envs 0).ret = PMMG_LOWFAILURE ∧
    (PMMG_clean_and_return grps).map (fun g => g.mesh.map meshCore) =
      grps.map (fun g => g.mesh.map meshCore) := by
  have hcc : PMMG_parmmglib_centralized envs 0 =
      ⟨[Phase.checkInput, Phase.distribute, Phase.remesh, Phase.mergeToRoot,
          Phase.bdryReconstruction], PMMG_LOWFAILURE, true, false, true⟩ := by
    unfold PMMG_parmmglib_centralized
    rw [if_neg hc, if_neg (by rw [hb]; decide), if_neg (by rw [hp]; decide),
      if_neg (by rw [hd]; decide), if_neg hrm, if_neg (by rw [hm]; decide),
      if_pos rfl, if_pos hfail]
  have hdd : PMMG_parmmglib_distributed envs 0 =
      ⟨[Phase.checkInput, Phase.analysis, Phase.remesh, Phase.bdryReconstruction],
        PMMG_LOWFAILURE, true, false, false⟩ := by
    unfold PMMG_parmmglib_distributed
    rw [if_neg hc, if_neg (by rw [hp]; decide), if_neg hrm, if_pos hfail]
  rw [hcc, hdd]
  exact ⟨rfl, by decide, rfl, clean_preserves_meshCore grps⟩

/-- Witness for C5: a single process whose boundary build fails. -/
theorem claim_C5_witness :
    (PMMG_parmmglib_centralized [eBdryFail] 0).ret = PMMG_LOWFAILURE ∧
    (PMMG_parmmglib_centralized [eBdryFail] 0).ret ≠ PMMG_STRONGFAILURE ∧
    (PMMG_parmmglib_distributed [eBdryFail] 0).ret = PMMG_LOWFAILURE ∧
    (PMMG_clean_and_return [gCleanEx]).map (fun g => g.mesh.map meshCore) =
      [gCleanEx].map (fun g => g.mesh.map meshCore) :=
  claim_C5 [eBdryFail] [gCleanEx] (by decide) (by decide) (by decide) (by decide)
    (by decide) (by decide) (by decide)

/-- C6 counterexample: with the distribution step failing on rank 1,
rank 1 aborts during phase 1 with a failure while rank 0 enters the
remeshing phase: a process enters a later phase although the outcome of
the earlier phase was aborting on a peer and no reduction of it exists. -/
theorem claim_C6_cex :
    (PMMG_parmmglib_centralized [eAllOk, eDistFail] 1).ret ≠ PMMG_SUCCESS ∧
    (PMMG_parmmglib_centralized [eAllOk, eDistFail] 1).trace =
      [Phase.checkInput, Phase.distribute] ∧
    Phase.remesh ∈ (PMMG_parmmglib_centralized [eAllOk, eDistFail] 0).trace := by
  decide

/-- C6 (amended): every process observes the centralized driver phases in
the same fixed source order (its trace is a sublist of check, distribute,
remesh, merge, boundary), and the merge-to-root phase is entered only
after the reduced input-check, preprocessing and remeshing outcomes are
known non-aborting; the distribution and merge outcomes themselves are
checked only locally, so a process can enter a later phase while a peer
already aborted in those steps. -/
theorem claim_C6 (envs : List ProcEnv) (r : Nat) :
    ((PMMG_parmmglib_centralized envs r).trace).Sublist canonicalPhases ∧
    (Phase.mergeToRoot ∈ (PMMG_parmmglib_centralized envs r).trace →
      checkMin envs ≠ 0 ∧ preprocMax envs = PMMG_SUCCESS ∧
      remeshMax envs ≠ PMMG_STRONGFAILURE) := by
  unfold PMMG_parmmglib_centralized
  split_ifs with h1 h2 h3 h4 h5 h6 h7 h8 <;> dsimp only <;>
    refine ⟨by decide, fun hmem => ?_⟩ <;>
    first
      | exact absurd hmem (by decide)
      | exact ⟨h1, of_not_not h3, h5⟩

/-- Witness for C6 (amended): the all-success single-process run enters
the merge phase, so the reduced earlier outcomes were non-aborting. -/
theorem claim_C6_witness :
    checkMin [eAllOk] ≠ 0 ∧ preprocMax [eAllOk] = PMMG_SUCCESS ∧
    remeshMax [eAllOk] ≠ PMMG_STRONGFAILURE :=
  (claim_C6 [eAllOk] 0).2 (by decide)

/-- C7 counterexample: the input-check abort path returns PMMG_LOWFAILURE
without freeing the communicators or the groups. -/
theorem claim_C7_cex :
    (PMMG_parmmglib_centralized [eCheckFail] 0).ret = PMMG_LOWFAILURE ∧
    (PMMG_parmmglib_centralized [eCheckFail] 0).freedComm = false ∧
    (PMMG_parmmglib_centralized [eCheckFail] 0).freedGrps = false := by
  decide

/-- C7 (amended): the entry points free the communicator structures
exactly on the runs that reach the boundary-reconstruction phase (rank 0
in the centralized driver, every rank in the distributed one) — including
that phase's PMMG_LOWFAILURE abort — and never free the group list; every
other abort path returns without releasing either. -/
theorem claim_C7 (envs : List ProcEnv) (r : Nat) :
    ((PMMG_parmmglib_centralized envs r).freedComm = true ↔
      Phase.bdryReconstruction ∈ (PMMG_parmmglib_centralized envs r).trace) ∧
    (PMMG_parmmglib_centralized envs r).freedGrps = false ∧
    ((PMMG_parmmglib_distributed envs r).freedComm = true ↔
      Phase.bdryReconstruction ∈ (PMMG_parmmglib_distributed envs r).trace) ∧
    (PMMG_parmmglib_distributed envs r).freedGrps = false := by
  unfold PMMG_parmmglib_centralized PMMG_parmmglib_distributed
  split_ifs <;> dsimp only <;>
    exact ⟨by decide, rfl, by decide, rfl⟩

end ParMmg
